import Mathlib

/-!
Verification development for the entropy-zero firmware (`src/main/main.c`).
The C source is shallowly embedded: pure computations become Lean functions over
`ℕ` / `ℤ` / `ℝ`, event-driven stateful code becomes explicit step functions on
state structures folded over event sequences, and the one C expression whose
result is undefined (an infinite float converted to `uint32_t`) is modelled with
`Option`.
-/

/- ------------------------------------------------------------------ -/
/- Interval Scheduler: `generate_poisson_delay`, main.c lines 136-141 -/
/- ------------------------------------------------------------------ -/

/-- Mean of the exponential delay distribution in minutes:
`#define AVERAGE_DELAY_MINUTES 60` (main.c line 47). -/
noncomputable def AVERAGE_DELAY_MINUTES : ℝ := 60

/-- Delay formula of `generate_poisson_delay` (main.c line 139):
`delay_minutes = -AVERAGE_DELAY_MINUTES * log(U)`, as a function of the
configured mean and the uniform draw `U`. -/
noncomputable def next_delay (mean U : ℝ) : ℝ := -mean * Real.log U

/-- Uniform draw of `generate_poisson_delay` (main.c line 138):
`U = (float)esp_random() / UINT32_MAX`, idealized as the exact rational value
`r / (2^32 - 1)` of the 32-bit draw `r`. -/
noncomputable def computeU (r : ℕ) : ℝ := (r : ℝ) / (2 ^ 32 - 1)

/-- Embedding of `generate_poisson_delay` (main.c lines 137-141) over the reals:
for draw `r` the delay in minutes is `-AVERAGE_DELAY_MINUTES * log (computeU r)`.
At `r = 0` the C code evaluates `log(0) = -inf` and converts the infinite
product to `uint32_t`, which is undefined behavior; that case is `none`. -/
noncomputable def generate_poisson_delay (r : ℕ) : Option ℝ :=
  if r = 0 then none else some (next_delay AVERAGE_DELAY_MINUTES (computeU r))

/- ------------------------------------------------------------- -/
/- Delivery Session: `mqtt_event_handler` and `send_data`,       -/
/- main.c lines 64-134                                           -/
/- ------------------------------------------------------------- -/

/-- Events delivered to `mqtt_event_handler` (main.c lines 64-92). `connected`
carries the return value of the `esp_mqtt_client_publish` call made in that
branch (main.c line 69); `other` stands for every event id the switch ignores. -/
inductive MqttEvent
  | connected (msgId : ℤ)
  | published
  | disconnected
  | error
  | other
  deriving DecidableEq

/-- Mutable state touched by `mqtt_event_handler`: `MQTT_DISCONNECT_FLAG`
(main.c line 54) and a count of `esp_mqtt_client_publish` calls, instrumenting
main.c line 69. -/
structure MqttState where
  mqttDisconnectFlag : Bool
  publishCalls : ℕ
  deriving DecidableEq

/-- Result of one run of `mqtt_event_handler`: an updated state, or the
`esp_restart()` call of the `MQTT_EVENT_ERROR` branch (main.c line 89) --
the only `esp_restart` call in the whole program. -/
inductive HandlerResult
  | normal (s : MqttState)
  | restart
  deriving DecidableEq

/-- Embedding of `mqtt_event_handler` (main.c lines 64-92). On
`MQTT_EVENT_CONNECTED` it performs exactly one publish call and sets the
disconnect flag iff the returned `msg_id` is negative; `MQTT_EVENT_PUBLISHED`
and `MQTT_EVENT_DISCONNECTED` set the flag; `MQTT_EVENT_ERROR` restarts. -/
def mqtt_event_handler : MqttEvent → MqttState → HandlerResult
  | .connected msgId, s =>
      if msgId < 0 then
        .normal { mqttDisconnectFlag := true, publishCalls := s.publishCalls + 1 }
      else
        .normal { s with publishCalls := s.publishCalls + 1 }
  | .published, s => .normal { s with mqttDisconnectFlag := true }
  | .disconnected, s => .normal { s with mqttDisconnectFlag := true }
  | .error, _ => .restart
  | .other, s => .normal s

/-- Effect of the tear-down branch of `send_data`'s polling loop
(main.c lines 127-130): the client is stopped, destroyed, and the flag is reset
to `false` before `send_data` returns. -/
structure TearDown where
  stopped : Bool
  destroyed : Bool
  flagAfter : Bool
  deriving DecidableEq

/-- One iteration of the polling loop of `send_data` (main.c lines 124-132):
when the disconnect flag is set it stops and destroys the client and resets the
flag (`some`), otherwise it keeps waiting (`none`). -/
def send_data_poll (s : MqttState) : Option TearDown :=
  if s.mqttDisconnectFlag then some ⟨true, true, false⟩ else none

/-- Initial value of `MQTT_DISCONNECT_FLAG` (main.c line 54). -/
def MQTT_DISCONNECT_FLAG_init : Bool := false

/-- Return paths of `send_data` (main.c lines 95-134): `noClient` when
`esp_mqtt_client_init` returned NULL (line 114), `startFail` when
`esp_mqtt_client_start` failed (line 120), `loopExit` when the polling loop
observed the flag and tore the client down (lines 126-131). -/
inductive CyclePath
  | noClient
  | startFail
  | loopExit
  deriving DecidableEq

/-- Value of `MQTT_DISCONNECT_FLAG` when `send_data` returns, as a function of
its value at the corresponding point of the cycle: the early-return paths leave
it untouched, and the loop-exit path executes `MQTT_DISCONNECT_FLAG = false`
(main.c line 129) regardless of its current value. -/
def send_data_flag (flagIn : Bool) : CyclePath → Bool
  | .noClient => flagIn
  | .startFail => flagIn
  | .loopExit => false

/-- Flag value after the report loop (main.c lines 144-164) has run the given
sequence of cycles, starting from the initial flag value. -/
def report_loop_flag (cycles : List CyclePath) : Bool :=
  cycles.foldl send_data_flag MQTT_DISCONNECT_FLAG_init

/- ----------------------------------------------------------------- -/
/- Theorems for claims C1, C2, C5, C6, C10                           -/
/- ----------------------------------------------------------------- -/

/-- Claim C1: for every positive configured mean and every uniform draw
`U ∈ (0,1)`, the next delay equals `-mean * ln U`, is strictly decreasing in
`U` on `(0,1)`, and is strictly positive; at the configured mean `60` and
`U = 1/2` it is within `0.01` of `41.59` minutes. -/
theorem c1_theorem (mean U : ℝ) (hm : 0 < mean) (hU : U ∈ Set.Ioo (0 : ℝ) 1) :
    next_delay mean U = -mean * Real.log U ∧
    StrictAntiOn (next_delay mean) (Set.Ioo (0 : ℝ) 1) ∧
    0 < next_delay mean U ∧
    |next_delay AVERAGE_DELAY_MINUTES (1 / 2) - 41.59| < 0.01 := by
  obtain ⟨hU0, hU1⟩ := hU
  refine ⟨rfl, ?_, ?_, ?_⟩
  · intro a ha b hb hab
    have hlog : Real.log a < Real.log b := Real.log_lt_log ha.1 hab
    have hpos : 0 < mean * (Real.log b - Real.log a) := mul_pos hm (by linarith)
    simp only [next_delay]
    nlinarith
  · have hlog : Real.log U < 0 := Real.log_neg hU0 hU1
    have hpos : 0 < mean * (-Real.log U) := mul_pos hm (by linarith)
    simp only [next_delay]
    nlinarith
  · have h2 : next_delay AVERAGE_DELAY_MINUTES (1 / 2) = 60 * Real.log 2 := by
      simp only [next_delay, AVERAGE_DELAY_MINUTES]
      rw [show (1 / 2 : ℝ) = 2⁻¹ by norm_num, Real.log_inv]
      ring
    rw [h2, abs_lt]
    have hlo := Real.log_two_gt_d9
    have hhi := Real.log_two_lt_d9
    constructor <;> nlinarith

/-- Witness for C1 at `mean = 60`, `U = 1/2`. -/
theorem c1_witness :
    (0 : ℝ) < 60 ∧ (1 / 2 : ℝ) ∈ Set.Ioo (0 : ℝ) 1 ∧
      (next_delay 60 (1 / 2) = -60 * Real.log (1 / 2) ∧
        StrictAntiOn (next_delay 60) (Set.Ioo (0 : ℝ) 1) ∧
        0 < next_delay 60 (1 / 2) ∧
        |next_delay AVERAGE_DELAY_MINUTES (1 / 2) - 41.59| < 0.01) :=
  ⟨by norm_num, by norm_num [Set.mem_Ioo],
    c1_theorem 60 (1 / 2) (by norm_num) (by norm_num [Set.mem_Ioo])⟩

/-- Claim C2 is violated by the code at its boundary draws: when `esp_random()`
returns `0` the computed `U` is `0` -- outside `(0,1)` -- and the resulting
delay is undefined (the C code takes `log(0) = -inf` and converts the infinite
float to `uint32_t`, undefined behavior); and when it returns `2^32 - 1` the
computed `U` is exactly `1`, also outside `(0,1)`. -/
theorem c2_code_bug :
    computeU 0 = 0 ∧ generate_poisson_delay 0 = none ∧ computeU (2 ^ 32 - 1) = 1 := by
  refine ⟨by simp [computeU], by simp [generate_poisson_delay], ?_⟩
  rw [computeU]
  norm_num

/-- Claim C5: the `MQTT_EVENT_ERROR` branch calls `esp_restart()` in every
handler state, and no other event category ever does. -/
theorem c5_theorem :
    (∀ s : MqttState, mqtt_event_handler .error s = .restart) ∧
    (∀ (e : MqttEvent) (s : MqttState), e ≠ .error →
      mqtt_event_handler e s ≠ .restart) := by
  refine ⟨fun s => rfl, fun e s he => ?_⟩
  cases e with
  | connected msgId => by_cases h : msgId < 0 <;> simp [mqtt_event_handler, h]
  | published => simp [mqtt_event_handler]
  | disconnected => simp [mqtt_event_handler]
  | error => exact absurd rfl he
  | other => simp [mqtt_event_handler]

/-- Witness for C5 at the `published` event and a concrete state. -/
theorem c5_witness :
    mqtt_event_handler .error ⟨false, 0⟩ = .restart ∧
      (MqttEvent.published ≠ MqttEvent.error ∧
        mqtt_event_handler .published ⟨false, 0⟩ ≠ .restart) :=
  ⟨c5_theorem.1 ⟨false, 0⟩,
    by decide,
    c5_theorem.2 .published ⟨false, 0⟩ (by decide)⟩

/-- Claim C6: on the `connected` event the handler attempts exactly one publish
of the current payload; a negative publish result marks the session
settled-with-failure (flag set) immediately; no other event performs a publish,
so there is no retry within the cycle; and once the flag is set the polling
loop of `send_data` stops and destroys the client handle and returns with the
flag reset. -/
theorem c6_theorem :
    (∀ (m : ℤ) (s : MqttState), ∃ s',
        mqtt_event_handler (.connected m) s = .normal s' ∧
          s'.publishCalls = s.publishCalls + 1) ∧
    (∀ (m : ℤ) (s : MqttState), m < 0 → ∃ s',
        mqtt_event_handler (.connected m) s = .normal s' ∧
          s'.mqttDisconnectFlag = true ∧ s'.publishCalls = s.publishCalls + 1) ∧
    (∀ (e : MqttEvent) (s s' : MqttState), (∀ m : ℤ, e ≠ .connected m) →
        mqtt_event_handler e s = .normal s' → s'.publishCalls = s.publishCalls) ∧
    (∀ s : MqttState, s.mqttDisconnectFlag = true →
        send_data_poll s = some ⟨true, true, false⟩) := by
  refine ⟨?_, ?_, ?_, ?_⟩
  · intro m s
    by_cases h : m < 0
    · exact ⟨{ mqttDisconnectFlag := true, publishCalls := s.publishCalls + 1 },
        by simp [mqtt_event_handler, h], rfl⟩
    · exact ⟨{ s with publishCalls := s.publishCalls + 1 },
        by simp [mqtt_event_handler, h], rfl⟩
  · intro m s h
    exact ⟨{ mqttDisconnectFlag := true, publishCalls := s.publishCalls + 1 },
      by simp [mqtt_event_handler, h], rfl, rfl⟩
  · intro e s s' he heq
    cases e with
    | connected m => exact absurd rfl (he m)
    | published => simp [mqtt_event_handler] at heq; rw [← heq]
    | disconnected => simp [mqtt_event_handler] at heq; rw [← heq]
    | error => exact absurd heq (by simp [mqtt_event_handler])
    | other => simp [mqtt_event_handler] at heq; rw [← heq]
  · intro s h
    simp [send_data_poll, h]

/-- Witness for C6 at `msg_id = -1`, the `published` event, and concrete
states. -/
theorem c6_witness :
    (∃ s', mqtt_event_handler (.connected (-1)) ⟨false, 0⟩ = .normal s' ∧
        s'.publishCalls = 0 + 1) ∧
    (∃ s', mqtt_event_handler (.connected (-1)) ⟨false, 0⟩ = .normal s' ∧
        s'.mqttDisconnectFlag = true ∧ s'.publishCalls = 0 + 1) ∧
    MqttState.publishCalls ⟨true, 0⟩ = MqttState.publishCalls ⟨false, 0⟩ ∧
    send_data_poll ⟨true, 0⟩ = some ⟨true, true, false⟩ :=
  ⟨c6_theorem.1 (-1) ⟨false, 0⟩,
    c6_theorem.2.1 (-1) ⟨false, 0⟩ (by norm_num),
    c6_theorem.2.2.1 .published ⟨false, 0⟩ ⟨true, 0⟩
      (fun m h => MqttEvent.noConfusion h) rfl,
    c6_theorem.2.2.2 ⟨true, 0⟩ rfl⟩

/-- Claim C10: the disconnect flag is initialized to `false`; the loop-exit
path of `send_data` returns with the flag reset regardless of its value; and
after every sequence of cycles the flag is again `false` -- so every cycle's
delivery wait begins with the flag clear and can never terminate on a value
left over from a previous cycle. -/
theorem c10_theorem :
    MQTT_DISCONNECT_FLAG_init = false ∧
    (∀ f : Bool, send_data_flag f .loopExit = false) ∧
    (∀ cycles : List CyclePath, report_loop_flag cycles = false) := by
  have key : ∀ cycles : List CyclePath, cycles.foldl send_data_flag false = false := by
    intro cycles
    induction cycles with
    | nil => rfl
    | cons c cs ih => cases c <;> simpa [send_data_flag] using ih
  exact ⟨rfl, fun f => rfl, fun cycles => key cycles⟩

/- ------------------------------------------------------------------ -/
/- Connectivity Manager: `event_handler`, main.c lines 166-240, and   -/
/- Provisioning Listener: `smartconfig_task`, main.c lines 261-278    -/
/- ------------------------------------------------------------------ -/

/-- Wi-Fi / IP / SmartConfig events dispatched to `event_handler`
(main.c lines 166-240), plus `scTaskExit` for the self-deletion of the
SmartConfig task (main.c line 275). `staStart` carries whether saved
credentials with a non-empty SSID were found (main.c line 173). -/
inductive WifiEvent
  | staStart (hasSavedCreds : Bool)
  | staDisconnected
  | gotIp
  | scanDone
  | foundChannel
  | gotSsidPswd
  | sendAckDone
  | scTaskExit
  deriving DecidableEq

/-- Process-wide state read and written by `event_handler`: the two event-group
bits `CONNECTED_BIT` and `ESPTOUCH_DONE_BIT` (main.c lines 56-57), the number
of live `sc_task` and `report_task` instances (guarded by the `xTaskGetHandle`
checks at main.c lines 180 and 191), and a count of `esp_wifi_connect()`
calls. -/
structure WifiState where
  connectedBit : Bool
  esptouchDoneBit : Bool
  scTasks : ℕ
  reportTasks : ℕ
  wifiConnectCalls : ℕ
  deriving DecidableEq

/-- Embedding of `event_handler` (main.c lines 166-240). `staStart` with saved
credentials connects, otherwise it creates `sc_task` only if none exists;
`staDisconnected` clears `CONNECTED_BIT` and unconditionally reconnects;
`gotIp` sets `CONNECTED_BIT` and creates `report_task` only if none exists;
the SmartConfig scan/channel events only log; `gotSsidPswd` applies the
captured credentials and reconnects; `sendAckDone` sets `ESPTOUCH_DONE_BIT`. -/
def event_handler : WifiEvent → WifiState → WifiState
  | .staStart hasSavedCreds, s =>
      if hasSavedCreds then { s with wifiConnectCalls := s.wifiConnectCalls + 1 }
      else if s.scTasks = 0 then { s with scTasks := 1 }
      else s
  | .staDisconnected, s =>
      { s with connectedBit := false, wifiConnectCalls := s.wifiConnectCalls + 1 }
  | .gotIp, s =>
      if s.reportTasks = 0 then { s with connectedBit := true, reportTasks := 1 }
      else { s with connectedBit := true }
  | .scanDone, s => s
  | .foundChannel, s => s
  | .gotSsidPswd, s => { s with wifiConnectCalls := s.wifiConnectCalls + 1 }
  | .sendAckDone, s => { s with esptouchDoneBit := true }
  | .scTaskExit, s => { s with scTasks := s.scTasks - 1 }

/-- Folding `event_handler` over an event sequence. -/
def run_events (l : List WifiEvent) (s : WifiState) : WifiState :=
  l.foldl (fun s e => event_handler e s) s

/-- Boot state: no bits set, no tasks, no connect calls. -/
def initState : WifiState :=
  { connectedBit := false, esptouchDoneBit := false, scTasks := 0,
    reportTasks := 0, wifiConnectCalls := 0 }

/-- One step of `event_handler` preserves the at-most-one-instance bound on
both tasks. -/
theorem event_handler_task_bound (e : WifiEvent) (s : WifiState)
    (hsc : s.scTasks ≤ 1) (hrep : s.reportTasks ≤ 1) :
    (event_handler e s).scTasks ≤ 1 ∧ (event_handler e s).reportTasks ≤ 1 := by
  cases e with
  | staStart b =>
      cases b with
      | false =>
          by_cases h : s.scTasks = 0 <;> simp [event_handler, h] <;> omega
      | true => simpa [event_handler] using ⟨hsc, hrep⟩
  | staDisconnected => simpa [event_handler] using ⟨hsc, hrep⟩
  | gotIp =>
      by_cases h : s.reportTasks = 0 <;> simp [event_handler, h] <;> omega
  | scanDone => exact ⟨hsc, hrep⟩
  | foundChannel => exact ⟨hsc, hrep⟩
  | gotSsidPswd => simpa [event_handler] using ⟨hsc, hrep⟩
  | sendAckDone => simpa [event_handler] using ⟨hsc, hrep⟩
  | scTaskExit =>
      refine ⟨?_, by simpa [event_handler] using hrep⟩
      simp [event_handler]
      omega

/-- Bits returned by one `xEventGroupWaitBits` call in `smartconfig_task`
(main.c line 268): which of `CONNECTED_BIT` and `ESPTOUCH_DONE_BIT` were set
when the wait returned. The call waits for ANY of the two bits
(`xWaitForAllBits = false`) and clears the returned bits on exit. -/
structure SCBits where
  connected : Bool
  done : Bool
  deriving DecidableEq

/-- State of `smartconfig_task` (main.c lines 261-278): whether it has called
`esp_smartconfig_stop()` and deleted itself (main.c lines 274-275), and which
of the two conditions it has observed so far. -/
structure SCState where
  stopped : Bool
  sawConnected : Bool
  sawDone : Bool
  deriving DecidableEq

/-- One iteration of the `smartconfig_task` loop (main.c lines 267-277): after
the task has deleted itself nothing further happens; otherwise it records the
returned bits and, exactly when `ESPTOUCH_DONE_BIT` is among them, stops the
capture mode and deletes itself. -/
def smartconfig_step (s : SCState) (b : SCBits) : SCState :=
  if s.stopped then s
  else { stopped := b.done,
         sawConnected := s.sawConnected || b.connected,
         sawDone := s.sawDone || b.done }

/-- Run of `smartconfig_task` over a sequence of wait results, from its start
state. -/
def smartconfig_run (l : List SCBits) : SCState :=
  l.foldl smartconfig_step { stopped := false, sawConnected := false, sawDone := false }

/-- Counterexample to claim C3: a run in which only the capture-acknowledged
bit is ever returned by the wait -- the task stops the capture mode and
terminates while the address-acquired condition was never observed, so it does
not wait for the logical AND of the two flags. -/
theorem c3_counterexample :
    (smartconfig_run [⟨false, true⟩]).stopped = true ∧
    (smartconfig_run [⟨false, true⟩]).sawConnected = false := by
  decide

/-- Claim C3 (amended): for every sequence of wait results, `smartconfig_task`
has stopped the capture mode and terminated exactly when it has observed the
capture-acknowledged condition; observing the address-acquired condition is
neither necessary nor sufficient for termination (it is only logged). -/
theorem c3_theorem (l : List SCBits) :
    (smartconfig_run l).stopped = (smartconfig_run l).sawDone := by
  have key : ∀ (l : List SCBits) (s : SCState), s.stopped = s.sawDone →
      (l.foldl smartconfig_step s).stopped = (l.foldl smartconfig_step s).sawDone := by
    intro l
    induction l with
    | nil => intro s h; exact h
    | cons b t ih =>
        intro s h
        simp only [List.foldl_cons]
        apply ih
        by_cases hs : s.stopped = true
        · simp [smartconfig_step, hs, ← h, hs]
        · have hs' : s.stopped = false := by
            cases hstop : s.stopped
            · rfl
            · exact absurd hstop hs
          have hd : s.sawDone = false := by rw [← h]; exact hs'
          simp [smartconfig_step, hs', hd]
  simpa [smartconfig_run] using
    key l { stopped := false, sawConnected := false, sawDone := false } rfl

/-- Counterexample to claim C4: from boot, a `staStart` with no saved
credentials starts the Provisioning Listener (`sc_task` exists, the system is
Provisioning); a link-drop delivered in that reachable state still increments
the `esp_wifi_connect()` count -- the code requests reassociation even while
Provisioning, with no exception. -/
theorem c4_counterexample :
    (run_events [.staStart false] initState).scTasks = 1 ∧
    (event_handler .staDisconnected (run_events [.staStart false] initState)).wifiConnectCalls =
      (run_events [.staStart false] initState).wifiConnectCalls + 1 := by
  decide

/-- Claim C4 (amended): every link-drop event clears the address-acquired
condition (`CONNECTED_BIT`) and unconditionally requests reassociation, in
every state -- including while Provisioning. -/
theorem c4_theorem (s : WifiState) :
    (event_handler .staDisconnected s).connectedBit = false ∧
    (event_handler .staDisconnected s).wifiConnectCalls = s.wifiConnectCalls + 1 :=
  ⟨rfl, rfl⟩

/-- Claim C9: along every event sequence from boot, at most one SmartConfig
task and at most one report task exist concurrently; a start request while an
instance already exists creates nothing -- `staStart` without credentials is a
complete no-op then, and `gotIp` only sets the connected bit. -/
theorem c9_theorem :
    (∀ l : List WifiEvent, (run_events l initState).scTasks ≤ 1 ∧
        (run_events l initState).reportTasks ≤ 1) ∧
    (∀ s : WifiState, 1 ≤ s.scTasks → event_handler (.staStart false) s = s) ∧
    (∀ s : WifiState, 1 ≤ s.reportTasks →
        event_handler .gotIp s = { s with connectedBit := true }) := by
  have key : ∀ (l : List WifiEvent) (s : WifiState),
      s.scTasks ≤ 1 → s.reportTasks ≤ 1 →
      (run_events l s).scTasks ≤ 1 ∧ (run_events l s).reportTasks ≤ 1 := by
    intro l
    induction l with
    | nil => intro s h1 h2; exact ⟨h1, h2⟩
    | cons e t ih =>
        intro s h1 h2
        have hb := event_handler_task_bound e s h1 h2
        simpa [run_events] using ih (event_handler e s) hb.1 hb.2
  refine ⟨fun l => key l initState (by decide) (by decide), ?_, ?_⟩
  · intro s hs
    have h0 : ¬s.scTasks = 0 := by omega
    simp [event_handler, h0]
  · intro s hs
    have h0 : ¬s.reportTasks = 0 := by omega
    simp [event_handler, h0]

/-- Witness for C9 at a duplicated start sequence and concrete states with one
instance already live. -/
theorem c9_witness :
    ((run_events [WifiEvent.staStart false, WifiEvent.staStart false] initState).scTasks ≤ 1 ∧
      (run_events [WifiEvent.staStart false, WifiEvent.staStart false] initState).reportTasks ≤ 1) ∧
    event_handler (.staStart false) ⟨false, false, 1, 0, 0⟩ = ⟨false, false, 1, 0, 0⟩ ∧
    event_handler .gotIp ⟨false, false, 0, 1, 0⟩ = ⟨true, false, 0, 1, 0⟩ :=
  ⟨c9_theorem.1 [WifiEvent.staStart false, WifiEvent.staStart false],
    c9_theorem.2.1 ⟨false, false, 1, 0, 0⟩ (by decide),
    c9_theorem.2.2 ⟨false, false, 0, 1, 0⟩ (by decide)⟩

/- ------------------------------------------------------------------ -/
/- Entropy Sampler: `report_entropy`, main.c lines 143-164            -/
/- ------------------------------------------------------------------ -/

/-- Composition of the 64-bit sample (main.c line 154):
`entropy64 = ((uint64_t)esp_random() << 32) | esp_random()` -- the first draw
shifted into the high half, or-ed with the second draw. -/
def entropy64 (r1 r2 : ℕ) : ℕ := (r1 <<< 32) ||| r2

/-- ASCII bytes of the fixed leading literal of the format string
`"{\"entropy\": %llu}"` (main.c line 156): the characters
`{`, `"`, `e`, `n`, `t`, `r`, `o`, `p`, `y`, `"`, `:`, space. -/
def PAYLOAD_HEADER : List ℕ := [123, 34, 101, 110, 116, 114, 111, 112, 121, 34, 58, 32]

/-- ASCII bytes that `%llu` produces for `v`: the decimal digits, most
significant first; `snprintf` prints `0` as the single digit `0`. -/
def decimalAscii (v : ℕ) : List ℕ :=
  if v = 0 then [48] else (Nat.digits 10 v).reverse.map fun d => 48 + d

/-- Bytes that `snprintf(json_payload, sizeof(json_payload), ...)` stores in
the 64-byte `json_payload` buffer (main.c lines 52 and 156), excluding the NUL
terminator; `snprintf` writes at most `sizeof(json_payload) - 1 = 63` payload
bytes. -/
def json_payload_bytes (v : ℕ) : List ℕ :=
  (PAYLOAD_HEADER ++ decimalAscii v ++ [125]).take 63

/-- Strip an expected leading byte sequence; `none` when the input does not
begin with it. -/
def stripHeader : List ℕ → List ℕ → Option (List ℕ)
  | [], l => some l
  | _ :: _, [] => none
  | p :: ps, c :: cs => if c = p then stripHeader ps cs else none

/-- Extract the numeric field of a payload: everything between the fixed
header and a required trailing close-brace byte (125). -/
def splitNumericField (rest : List ℕ) : Option (List ℕ) :=
  if rest.getLast? = some 125 then some rest.dropLast else none

/-- Check that a numeric field is a nonempty string of ASCII digits. -/
def checkDigits (ds : List ℕ) : Bool :=
  !ds.isEmpty && ds.all fun c => decide (48 ≤ c ∧ c ≤ 57)

/-- Parse a most-significant-first list of ASCII digit bytes as a natural
number. -/
def parseDecimal (l : List ℕ) : ℕ :=
  l.foldl (fun n c => n * 10 + (c - 48)) 0

/-- Decoder for the published message format: strips the fixed header, splits
off the required trailing close brace, validates the digit field and returns
its value. -/
def decode_entropy (l : List ℕ) : Option ℕ :=
  (stripHeader PAYLOAD_HEADER l).bind fun rest =>
    (splitNumericField rest).bind fun ds =>
      if checkDigits ds then some (parseDecimal ds) else none

/-- Stripping a header from that header followed by anything returns the
remainder. -/
theorem stripHeader_append (p l : List ℕ) : stripHeader p (p ++ l) = some l := by
  induction p with
  | nil => rfl
  | cons a t ih => simp [stripHeader, ih]

/-- Splitting the numeric field off a digit string followed by the close brace
returns the digit string. -/
theorem splitNumericField_append (ds : List ℕ) :
    splitNumericField (ds ++ [125]) = some ds := by
  simp [splitNumericField, List.getLast?_concat]

/-- Folding the decimal-parsing step over mapped digits accumulates the base-10
value of the digit list. -/
theorem parseDecimal_map (ds : List ℕ) (a : ℕ) :
    List.foldl (fun n c => n * 10 + (c - 48)) a (ds.reverse.map fun d => 48 + d) =
      a * 10 ^ ds.length + Nat.ofDigits 10 ds := by
  induction ds generalizing a with
  | nil => simp
  | cons d t ih =>
      simp only [List.reverse_cons, List.map_append, List.map_cons, List.map_nil,
        List.foldl_append, List.foldl_cons, List.foldl_nil, ih, Nat.ofDigits_cons,
        List.length_cons]
      have hd : 48 + d - 48 = d := by omega
      rw [hd]
      ring

/-- The decimal encoding of any value is nonempty. -/
theorem decimalAscii_ne_nil (v : ℕ) : decimalAscii v ≠ [] := by
  rw [decimalAscii]
  split
  · simp
  · rename_i hv
    have h1 : Nat.digits 10 v ≠ [] := Nat.digits_ne_nil_iff_ne_zero.mpr hv
    intro hcon
    exact h1 (by simpa [List.length_eq_zero] using congrArg List.length hcon)

/-- Every byte of the decimal encoding is an ASCII digit. -/
theorem decimalAscii_digits (v : ℕ) : ∀ c ∈ decimalAscii v, 48 ≤ c ∧ c ≤ 57 := by
  intro c hc
  rw [decimalAscii] at hc
  split at hc
  · simp at hc
    omega
  · simp only [List.mem_map, List.mem_reverse] at hc
    obtain ⟨d, hd, rfl⟩ := hc
    have := Nat.digits_lt_base (by norm_num) hd
    omega

/-- A 64-bit value has at most 20 decimal digits. -/
theorem decimalAscii_length_le (v : ℕ) (hv : v < 2 ^ 64) :
    (decimalAscii v).length ≤ 20 := by
  rw [decimalAscii]
  split
  · simp
  · rename_i hv0
    simp only [List.length_map, List.length_reverse]
    rw [Nat.digits_len 10 v (by norm_num) hv0]
    have hlog : Nat.log 10 v < 20 :=
      Nat.log_lt_of_lt_pow hv0 (lt_trans hv (by norm_num))
    omega

/-- The digit-field check accepts every decimal encoding. -/
theorem checkDigits_decimalAscii (v : ℕ) : checkDigits (decimalAscii v) = true := by
  have hall : ∀ c ∈ decimalAscii v, decide (48 ≤ c ∧ c ≤ 57) = true := by
    intro c hc
    exact decide_eq_true (decimalAscii_digits v c hc)
  cases hd : decimalAscii v with
  | nil => exact absurd hd (decimalAscii_ne_nil v)
  | cons a t =>
      rw [checkDigits]
      simp only [List.isEmpty_cons, Bool.not_false, Bool.true_and, List.all_eq_true]
      intro c hc
      exact hall c (by rw [hd]; exact hc)

/-- Decimal parsing inverts the decimal encoding. -/
theorem parseDecimal_decimalAscii (v : ℕ) : parseDecimal (decimalAscii v) = v := by
  rw [decimalAscii]
  split
  · rename_i h
    subst h
    rfl
  · rw [parseDecimal, parseDecimal_map]
    simp [Nat.ofDigits_digits]

/-- For 64-bit values the payload never reaches the `snprintf` truncation
bound, so the stored bytes are exactly header, digits and close brace, and
there are at most 33 of them. -/
theorem json_payload_bytes_eq (v : ℕ) (hv : v < 2 ^ 64) :
    json_payload_bytes v = PAYLOAD_HEADER ++ decimalAscii v ++ [125] ∧
    (json_payload_bytes v).length ≤ 33 := by
  have hd := decimalAscii_length_le v hv
  have hlen : (PAYLOAD_HEADER ++ decimalAscii v ++ [125]).length ≤ 33 := by
    simp only [List.length_append, PAYLOAD_HEADER, List.length_cons,
      List.length_nil, List.length_singleton]
    omega
  have heq : json_payload_bytes v = PAYLOAD_HEADER ++ decimalAscii v ++ [125] := by
    rw [json_payload_bytes]
    exact List.take_of_length_le (by omega)
  exact ⟨heq, heq ▸ hlen⟩

/- ----------------------------------------------------------------- -/
/- Theorems for claims C7 and C8                                     -/
/- ----------------------------------------------------------------- -/

/-- Claim C7: for every 64-bit value the stored payload is exactly the fixed
header (`{"entropy": ` in ASCII), the decimal digits of the value, and the
closing brace; decoding the numeric field recovers the value exactly; and the
payload length including the NUL terminator is at most 35 bytes, hence within
the 64-byte buffer and under the 63-byte external limit. -/
theorem c7_theorem (v : ℕ) (hv : v < 2 ^ 64) :
    json_payload_bytes v = PAYLOAD_HEADER ++ decimalAscii v ++ [125] ∧
    decode_entropy (json_payload_bytes v) = some v ∧
    (json_payload_bytes v).length + 1 ≤ 35 ∧
    (json_payload_bytes v).length + 1 ≤ 63 := by
  obtain ⟨heq, hlen⟩ := json_payload_bytes_eq v hv
  have hd := decimalAscii_length_le v hv
  have h35 : (json_payload_bytes v).length + 1 ≤ 35 := by
    rw [heq]
    simp only [List.length_append, PAYLOAD_HEADER, List.length_cons,
      List.length_nil, List.length_singleton]
    omega
  refine ⟨heq, ?_, h35, by omega⟩
  rw [heq, decode_entropy, List.append_assoc, stripHeader_append]
  simp only [Option.some_bind, splitNumericField_append,
    checkDigits_decimalAscii, if_true, parseDecimal_decimalAscii]

/-- Witness for C7 at the value `0`. -/
theorem c7_witness :
    (0 : ℕ) < 2 ^ 64 ∧
      (json_payload_bytes 0 = PAYLOAD_HEADER ++ decimalAscii 0 ++ [125] ∧
        decode_entropy (json_payload_bytes 0) = some 0 ∧
        (json_payload_bytes 0).length + 1 ≤ 35 ∧
        (json_payload_bytes 0).length + 1 ≤ 63) :=
  ⟨by norm_num, c7_theorem 0 (by norm_num)⟩

/-- Claim C8: for any two 32-bit draws the composed sample equals
`r1 * 2^32 + r2`, so its high 32 bits are exactly the first draw, its low 32
bits exactly the second, and it fits in 64 bits. -/
theorem c8_theorem (r1 r2 : ℕ) (h1 : r1 < 2 ^ 32) (h2 : r2 < 2 ^ 32) :
    entropy64 r1 r2 = r1 * 2 ^ 32 + r2 ∧
    entropy64 r1 r2 / 2 ^ 32 = r1 ∧
    entropy64 r1 r2 % 2 ^ 32 = r2 ∧
    entropy64 r1 r2 < 2 ^ 64 := by
  have hadd : entropy64 r1 r2 = r1 * 2 ^ 32 + r2 := by
    rw [entropy64, Nat.shiftLeft_eq, Nat.mul_comm r1 (2 ^ 32),
      ← Nat.mul_add_lt_is_or h2 r1, Nat.mul_comm (2 ^ 32) r1]
  have hpow : (2 : ℕ) ^ 32 = 4294967296 := by norm_num
  have hpow64 : (2 : ℕ) ^ 64 = 18446744073709551616 := by norm_num
  rw [hpow] at h1 h2
  refine ⟨hadd, ?_, ?_, ?_⟩ <;> rw [hadd, hpow]
  · omega
  · omega
  · rw [hpow64]
    omega

/-- Witness for C8 at the draws `3` and `5`. -/
theorem c8_witness :
    (3 : ℕ) < 2 ^ 32 ∧ (5 : ℕ) < 2 ^ 32 ∧
      (entropy64 3 5 = 3 * 2 ^ 32 + 5 ∧ entropy64 3 5 / 2 ^ 32 = 3 ∧
        entropy64 3 5 % 2 ^ 32 = 5 ∧ entropy64 3 5 < 2 ^ 64) :=
  ⟨by norm_num, by norm_num, c8_theorem 3 5 (by norm_num) (by norm_num)⟩
